import Mathlib

/-!
Shallow embedding of the AgentUI chat client (frontend `App.jsx`, streaming
variant with the `isWaiting` flag and `pendingNewTurn` ref).  The client keeps
a transcript of messages, a handful of boolean indicators, and reduces inbound
WebSocket frames into new state via `handleServerMessage`; outbound user turns
go through `sendMessage`.
-/

namespace AgentUI

/-- Role of a chat message: `'user'` or `'assistant'` in the source. -/
inductive Role where
  | user
  | assistant
deriving DecidableEq, Repr

/-- Status of a tool call: `'running'` or `'done'` in the source. -/
inductive ToolStatus where
  | running
  | done
deriving DecidableEq, Repr

/-- A tool-call chip `{ id, name, status }` attached to an assistant message. -/
structure ToolCall where
  id : String
  name : String
  status : ToolStatus
deriving DecidableEq, Repr

/-- The media reference kept on a displayed user message:
`media.map(m => ({ type: m.type, preview: m.preview }))` in `sendMessage`. -/
structure MediaDisplay where
  type : String
  preview : String
deriving DecidableEq, Repr

/-- A pending attachment as built by `handleFileSelect`:
`{ type, media_type, data, preview, name }`. -/
structure MediaRef where
  type : String
  media_type : String
  data : String
  preview : String
  name : String
deriving DecidableEq, Repr

/-- A transcript message.  In the source, user messages carry `media` and
assistant messages carry `tools`; here both fields are always present (empty
when absent in the source, which is observationally the same since the code
only reads `tools` behind a `role === 'assistant'` check). -/
structure Message where
  role : Role
  content : String
  media : List MediaDisplay
  tools : List ToolCall
deriving DecidableEq, Repr

/-- Inbound frames (backend to client), tagged by their `type` field.
`unknown` stands for any frame whose `type` matches no `case` of the
`switch` in `handleServerMessage`. -/
inductive ServerMsg where
  | thinking (status : Bool)
  | text_delta (text : String)
  | tool_start (tool_id : String) (name : String)
  | tool_end (tool_id : String)
  | new_turn
  | done
  | error (message : String)
  | cleared
  | unknown (type : String)
deriving DecidableEq, Repr

/-- The element of the `media` array of an outbound `message` frame:
`{ type: m.type, media_type: m.media_type, data: m.data }`. -/
structure OutboundMedia where
  type : String
  media_type : String
  data : String
deriving DecidableEq, Repr

/-- The outbound `{ type: 'message', text, media }` frame sent by
`sendMessage`. -/
structure OutboundFrame where
  type : String
  text : String
  media : List OutboundMedia
deriving DecidableEq, Repr

/-- The client state: React state hooks `messages`, `input`, `media`,
`isThinking`, `isWaiting`, `error`, whether the `ws` handle is set
(`wsOpen`), and the `pendingNewTurn` ref. -/
structure ClientState where
  messages : List Message
  input : String
  media : List MediaRef
  isThinking : Bool
  isWaiting : Bool
  error : Option String
  wsOpen : Bool
  pendingNewTurn : Bool
deriving DecidableEq, Repr

/-- The `setMessages` updater of the `'text_delta'` case, for the branch where
`pendingNewTurn` is clear: if the last message is an assistant message extend
its `content`, otherwise push `{ role: 'assistant', content: data.text,
tools: [] }`. -/
def textDeltaUpdate (text : String) (prev : List Message) : List Message :=
  match prev.getLast? with
  | some lastMsg =>
      if lastMsg.role = .assistant then
        prev.dropLast ++ [{ lastMsg with content := lastMsg.content ++ text }]
      else
        prev ++ [⟨.assistant, text, [], []⟩]
  | none => prev ++ [⟨.assistant, text, [], []⟩]

/-- The `setMessages` updater of the `'tool_start'` case: if the last message is
an assistant message append `{ id: data.tool_id, name: data.name,
status: 'running' }` to its tool list, otherwise push a new assistant message
with empty content and that one tool. -/
def toolStartUpdate (tool_id name : String) (prev : List Message) : List Message :=
  match prev.getLast? with
  | some lastMsg =>
      if lastMsg.role = .assistant then
        prev.dropLast ++ [{ lastMsg with tools := lastMsg.tools ++ [⟨tool_id, name, .running⟩] }]
      else
        prev ++ [⟨.assistant, "", [], [⟨tool_id, name, .running⟩]⟩]
  | none => prev ++ [⟨.assistant, "", [], [⟨tool_id, name, .running⟩]⟩]

/-- The `setMessages` updater of the `'tool_end'` case: if the last message is
an assistant message (whose `tools` array is then always present), map over its
tools marking the one with a matching id `'done'`; otherwise return `prev`
unchanged. -/
def toolEndUpdate (tool_id : String) (prev : List Message) : List Message :=
  match prev.getLast? with
  | some lastMsg =>
      if lastMsg.role = .assistant then
        prev.dropLast ++
          [{ lastMsg with
               tools := lastMsg.tools.map fun t =>
                 if t.id = tool_id then { t with status := .done } else t }]
      else prev
  | none => prev

/-- The `handleServerMessage` reducer: one inbound frame to a new client
state, following the `switch (data.type)` of the source case by case.  In the
`'text_delta'` case the `pendingNewTurn` ref is read (and cleared) before the
last-message check, exactly as in the source. -/
def handleServerMessage (st : ClientState) (data : ServerMsg) : ClientState :=
  match data with
  | .thinking status => { st with isThinking := status }
  | .text_delta text =>
      if st.pendingNewTurn then
        { st with
            isWaiting := false
            pendingNewTurn := false
            messages := st.messages ++ [⟨.assistant, text, [], []⟩] }
      else
        { st with isWaiting := false, messages := textDeltaUpdate text st.messages }
  | .tool_start tool_id name =>
      { st with isWaiting := false, messages := toolStartUpdate tool_id name st.messages }
  | .tool_end tool_id => { st with messages := toolEndUpdate tool_id st.messages }
  | .new_turn => { st with pendingNewTurn := true }
  | .done => { st with isThinking := false, isWaiting := false }
  | .error message => { st with error := some message, isThinking := false, isWaiting := false }
  | .cleared => { st with messages := [] }
  | .unknown _ => st

/-- Processing a whole sequence of inbound frames in arrival order. -/
def handleEvents (st : ClientState) (evs : List ServerMsg) : ClientState :=
  evs.foldl handleServerMessage st

/-- The guard of `sendMessage`:
`(!input.trim() && media.length === 0) || !ws || isThinking`. -/
def sendBlocked (st : ClientState) : Prop :=
  (st.input.trim = "" ∧ st.media = []) ∨ st.wsOpen = false ∨ st.isThinking = true

instance (st : ClientState) : Decidable (sendBlocked st) := by
  unfold sendBlocked; infer_instance

/-- The `sendMessage` handler: when not blocked by its guard it appends the
user message (keeping only `type`/`preview` of each attachment), emits the
outbound `message` frame (with `type`/`media_type`/`data` of each attachment),
sets `isWaiting`, and clears the input and the attachment list.  Returns the
new state together with the frame sent, if any. -/
def sendMessage (st : ClientState) : ClientState × Option OutboundFrame :=
  if sendBlocked st then (st, none)
  else
    ({ st with
         messages :=
           st.messages ++
             [⟨.user, st.input, st.media.map fun m => ⟨m.type, m.preview⟩, []⟩]
         isWaiting := true
         input := ""
         media := [] },
     some ⟨"message", st.input, st.media.map fun m => ⟨m.type, m.media_type, m.data⟩⟩)

/-- Concatenation of a list of delta texts in arrival order. -/
def strConcat : List String → String
  | [] => ""
  | t :: ts => t ++ strConcat ts

/-- Whether the reducer's case for this frame executes `setIsWaiting(false)`:
exactly the `'text_delta'`, `'tool_start'`, `'done'` and `'error'` cases. -/
def clearsWaiting : ServerMsg → Bool
  | .text_delta _ => true
  | .tool_start _ _ => true
  | .done => true
  | .error _ => true
  | _ => false

/-! ## Helper lemmas -/

lemma textDeltaUpdate_concat (text : String) (front : List Message) (last : Message)
    (hr : last.role = .assistant) :
    textDeltaUpdate text (front ++ [last])
      = front ++ [{ last with content := last.content ++ text }] := by
  simp [textDeltaUpdate, List.getLast?_concat, List.dropLast_concat, hr]

lemma deltas_chain (ts : List String) :
    ∀ (st : ClientState) (front : List Message) (last : Message),
      st.pendingNewTurn = false → st.messages = front ++ [last] → last.role = .assistant →
      (handleEvents st (ts.map ServerMsg.text_delta)).messages
          = front ++ [{ last with content := last.content ++ strConcat ts }] ∧
      (handleEvents st (ts.map ServerMsg.text_delta)).pendingNewTurn = false := by
  induction ts with
  | nil =>
      intro st front last hp hm hr
      simp [handleEvents, hm, hp, strConcat, String.append_empty]
  | cons t ts ih =>
      intro st front last hp hm hr
      have hstep : handleServerMessage st (.text_delta t)
          = { st with isWaiting := false,
                      messages := front ++ [{ last with content := last.content ++ t }] } := by
        simp [handleServerMessage, hp, hm, textDeltaUpdate_concat t front last hr]
      have h := ih { st with isWaiting := false,
                             messages := front ++ [{ last with content := last.content ++ t }] }
        front { last with content := last.content ++ t } hp rfl hr
      simpa [handleEvents, hstep, strConcat, String.append_assoc] using h

lemma toolEnd_f_idem (X : String) (t : ToolCall) :
    (fun t : ToolCall => if t.id = X then { t with status := .done } else t)
      ((fun t : ToolCall => if t.id = X then { t with status := .done } else t) t)
    = (fun t : ToolCall => if t.id = X then { t with status := .done } else t) t := by
  by_cases h : t.id = X <;> simp [h]

lemma toolEndUpdate_idem (X : String) (l : List Message) :
    toolEndUpdate X (toolEndUpdate X l) = toolEndUpdate X l := by
  cases hl : l.getLast? with
  | none =>
      have : toolEndUpdate X l = l := by simp [toolEndUpdate, hl]
      rw [this, toolEndUpdate, hl]
  | some m =>
      by_cases hr : m.role = .assistant
      · obtain ⟨front, rfl⟩ := List.getLast?_eq_some_iff.mp hl
        have h1 : toolEndUpdate X (front ++ [m])
            = front ++ [{ m with tools := m.tools.map fun t =>
                if t.id = X then { t with status := .done } else t }] := by
          simp [toolEndUpdate, List.getLast?_concat, List.dropLast_concat, hr]
        rw [h1]
        simp [toolEndUpdate, List.getLast?_concat, List.dropLast_concat, hr,
          List.map_map, Function.comp_def, toolEnd_f_idem]
      · have : toolEndUpdate X l = l := by simp [toolEndUpdate, hl, hr]
        rw [this, this]

lemma toolEndUpdate_no_match (X : String) (l : List Message)
    (h : ∀ m, l.getLast? = some m → ∀ t ∈ m.tools, t.id ≠ X) :
    toolEndUpdate X l = l := by
  cases hl : l.getLast? with
  | none => simp [toolEndUpdate, hl]
  | some m =>
      by_cases hr : m.role = .assistant
      · obtain ⟨front, rfl⟩ := List.getLast?_eq_some_iff.mp hl
        have hmap : (m.tools.map fun t =>
            if t.id = X then { t with status := .done } else t) = m.tools := by
          have := h m hl
          calc (m.tools.map fun t => if t.id = X then { t with status := .done } else t)
              = m.tools.map id := List.map_congr_left (by
                intro t ht
                simp [this t ht])
            _ = m.tools := List.map_id m.tools
        simp [toolEndUpdate, List.getLast?_concat, List.dropLast_concat, hr, hmap]
        rw [← hr]
      · simp [toolEndUpdate, hl, hr]

/-! ## Claim theorems -/

/-- C1: for every transcript whose last message is not an assistant message
(a user message, or the transcript is empty), a `tool_start{tool_id,name}`
event appends a new assistant message with empty content and exactly one
`ToolCall { id := tool_id, name, status := running }`. -/
theorem tool_start_fresh_message (st : ClientState) (tool_id name : String)
    (h : ∀ m, st.messages.getLast? = some m → m.role ≠ .assistant) :
    (handleServerMessage st (.tool_start tool_id name)).messages
      = st.messages ++ [⟨.assistant, "", [], [⟨tool_id, name, .running⟩]⟩] := by
  cases hm : st.messages.getLast? with
  | none => simp [handleServerMessage, toolStartUpdate, hm]
  | some m =>
      have hr : m.role ≠ .assistant := h m hm
      simp [handleServerMessage, toolStartUpdate, hm, hr]

/-- Witness for C1 at a transcript ending in a user message. -/
theorem tool_start_fresh_message_witness :
    (handleServerMessage ⟨[⟨.user, "q", [], []⟩], "", [], false, true, none, true, false⟩
        (.tool_start "t1" "search")).messages
      = [⟨.user, "q", [], []⟩] ++ [⟨.assistant, "", [], [⟨"t1", "search", .running⟩]⟩] := by
  exact tool_start_fresh_message ⟨[⟨.user, "q", [], []⟩], "", [], false, true, none, true, false⟩
    "t1" "search" (by intro m hm; simp at hm; subst hm; decide)

/-- C2: a `new_turn` event sets the turn-boundary marker; a `text_delta` with
the marker set appends a brand-new assistant message and clears the marker;
hence `new_turn` followed by one or more `text_delta` events appends exactly
one new assistant message whose content is the concatenation of the deltas. -/
theorem new_turn_fresh_message (st : ClientState) (t : String) (ts : List String) :
    (handleServerMessage st .new_turn).pendingNewTurn = true ∧
    (∀ s : ClientState, s.pendingNewTurn = true →
        (handleServerMessage s (.text_delta t)).messages
            = s.messages ++ [⟨.assistant, t, [], []⟩] ∧
        (handleServerMessage s (.text_delta t)).pendingNewTurn = false) ∧
    (handleEvents st (ServerMsg.new_turn :: (t :: ts).map ServerMsg.text_delta)).messages
        = st.messages ++ [⟨.assistant, strConcat (t :: ts), [], []⟩] ∧
    (handleEvents st (ServerMsg.new_turn :: (t :: ts).map ServerMsg.text_delta)).pendingNewTurn
        = false := by
  have h := deltas_chain ts
    { st with isWaiting := false, pendingNewTurn := false,
              messages := st.messages ++ [⟨.assistant, t, [], []⟩] }
    st.messages ⟨.assistant, t, [], []⟩ rfl rfl rfl
  have hfold : handleEvents st (ServerMsg.new_turn :: (t :: ts).map ServerMsg.text_delta)
      = handleEvents
          { st with isWaiting := false, pendingNewTurn := false,
                    messages := st.messages ++ [⟨.assistant, t, [], []⟩] }
          (ts.map ServerMsg.text_delta) := by
    simp [handleEvents, handleServerMessage]
  refine ⟨rfl,
    fun s hs => ⟨by simp [handleServerMessage, hs], by simp [handleServerMessage, hs]⟩,
    ?_, ?_⟩
  · rw [hfold, h.1]; simp [strConcat]
  · rw [hfold]; exact h.2

/-- Witness for C2: a delta with the marker set opens a fresh message. -/
theorem new_turn_fresh_message_witness :
    (handleServerMessage ⟨[], "", [], false, false, none, true, true⟩
        (ServerMsg.text_delta "hi")).messages = [⟨.assistant, "hi", [], []⟩] := by
  have h := ((new_turn_fresh_message ⟨[], "", [], false, false, none, true, false⟩
      "hi" []).2.1 ⟨[], "", [], false, false, none, true, true⟩ rfl).1
  simpa using h

/-- C3: the waiting indicator is cleared by exactly the `text_delta`,
`tool_start`, `done` and `error` events, untouched by every other event, and
set by a successful `sendMessage` (a blocked send changes nothing). -/
theorem waiting_indicator (st : ClientState) (e : ServerMsg) :
    ((handleServerMessage st e).isWaiting
        = if clearsWaiting e then false else st.isWaiting) ∧
    (¬ sendBlocked st → (sendMessage st).1.isWaiting = true) ∧
    (sendBlocked st → sendMessage st = (st, none)) := by
  refine ⟨?_, ?_, ?_⟩
  · cases e <;> simp [handleServerMessage, clearsWaiting, apply_ite]
  · intro h; simp [sendMessage, h]
  · intro h; simp [sendMessage, h]

/-- Witness for C3 at an unblocked send (one pending attachment). -/
theorem waiting_indicator_witness :
    ¬ sendBlocked ⟨[], "", [⟨"image", "image/png", "ZGF0YQ", "blob:p", "cat.png"⟩],
        false, false, none, true, false⟩ ∧
    (sendMessage ⟨[], "", [⟨"image", "image/png", "ZGF0YQ", "blob:p", "cat.png"⟩],
        false, false, none, true, false⟩).1.isWaiting = true := by
  have hb : ¬ sendBlocked ⟨[], "", [⟨"image", "image/png", "ZGF0YQ", "blob:p", "cat.png"⟩],
      false, false, none, true, false⟩ := by
    simp [sendBlocked]
  exact ⟨hb,
    (waiting_indicator ⟨[], "", [⟨"image", "image/png", "ZGF0YQ", "blob:p", "cat.png"⟩],
        false, false, none, true, false⟩ ServerMsg.done).2.1 hb⟩

/-- C4: with the turn-boundary marker clear and the transcript ending in an
assistant message, a sequence of `text_delta` events extends that message's
content by the concatenation of the deltas in arrival order, creating no new
message and leaving the marker clear. -/
theorem text_deltas_concat (st : ClientState) (front : List Message) (last : Message)
    (ts : List String) (hp : st.pendingNewTurn = false)
    (hm : st.messages = front ++ [last]) (hr : last.role = .assistant) :
    (handleEvents st (ts.map ServerMsg.text_delta)).messages
        = front ++ [{ last with content := last.content ++ strConcat ts }] ∧
    (handleEvents st (ts.map ServerMsg.text_delta)).messages.length = st.messages.length ∧
    (handleEvents st (ts.map ServerMsg.text_delta)).pendingNewTurn = false := by
  have h := deltas_chain ts st front last hp hm hr
  refine ⟨h.1, ?_, h.2⟩
  rw [h.1, hm]; simp

/-- Witness for C4: two deltas onto an open assistant message. -/
theorem text_deltas_concat_witness :
    (handleEvents ⟨[⟨.assistant, "A", [], []⟩], "", [], false, false, none, true, false⟩
        ([" B", "C"].map ServerMsg.text_delta)).messages
      = [⟨.assistant, "A BC", [], []⟩] := by
  have h := (text_deltas_concat
      ⟨[⟨.assistant, "A", [], []⟩], "", [], false, false, none, true, false⟩
      [] ⟨.assistant, "A", [], []⟩ [" B", "C"] rfl rfl rfl).1
  exact h.trans (by decide)

/-- C5: `tool_end{tool_id = X}` is idempotent, and when no tool call with
id `X` exists in the last message it leaves the whole state unchanged. -/
theorem tool_end_idempotent_noop (st : ClientState) (X : String) :
    handleServerMessage (handleServerMessage st (.tool_end X)) (.tool_end X)
        = handleServerMessage st (.tool_end X) ∧
    ((∀ m, st.messages.getLast? = some m → ∀ t ∈ m.tools, t.id ≠ X) →
        handleServerMessage st (.tool_end X) = st) := by
  constructor
  · simp [handleServerMessage, toolEndUpdate_idem]
  · intro h
    simp [handleServerMessage, toolEndUpdate_no_match X st.messages h]

/-- Witness for C5: a `tool_end` with an unseen id is a no-op. -/
theorem tool_end_idempotent_noop_witness :
    handleServerMessage
        ⟨[⟨.assistant, "hi", [], [⟨"a", "calc", .running⟩]⟩], "", [], false, false, none,
          true, false⟩ (.tool_end "b")
      = ⟨[⟨.assistant, "hi", [], [⟨"a", "calc", .running⟩]⟩], "", [], false, false, none,
          true, false⟩ := by
  exact (tool_end_idempotent_noop
      ⟨[⟨.assistant, "hi", [], [⟨"a", "calc", .running⟩]⟩], "", [], false, false, none,
        true, false⟩ "b").2
    (by intro m hm t ht; simp at hm; subst hm; simp at ht; subst ht; decide)

/-- C6: an `error{message}` event leaves the transcript unchanged, surfaces
the message as the current error, and clears both in-flight indicators. -/
theorem error_preserves_transcript (st : ClientState) (msg : String) :
    (handleServerMessage st (.error msg)).messages = st.messages ∧
    (handleServerMessage st (.error msg)).error = some msg ∧
    (handleServerMessage st (.error msg)).isThinking = false ∧
    (handleServerMessage st (.error msg)).isWaiting = false :=
  ⟨rfl, rfl, rfl, rfl⟩

/-- C7: every event either leaves the transcript unchanged, resets it to
empty, appends one new message, or replaces only the last message; earlier
messages are never touched. -/
theorem only_last_message_changes (st : ClientState) (e : ServerMsg) :
    (handleServerMessage st e).messages = st.messages ∨
    (handleServerMessage st e).messages = [] ∨
    (∃ m, (handleServerMessage st e).messages = st.messages ++ [m]) ∨
    (∃ m, (handleServerMessage st e).messages = st.messages.dropLast ++ [m]) := by
  cases e with
  | thinking s => exact Or.inl rfl
  | new_turn => exact Or.inl rfl
  | done => exact Or.inl rfl
  | error msg => exact Or.inl rfl
  | unknown ty => exact Or.inl rfl
  | cleared => exact Or.inr (Or.inl rfl)
  | text_delta t =>
      by_cases hp : st.pendingNewTurn
      · exact Or.inr (Or.inr (Or.inl ⟨⟨.assistant, t, [], []⟩,
          by simp [handleServerMessage, hp]⟩))
      · cases hl : st.messages.getLast? with
        | none =>
            exact Or.inr (Or.inr (Or.inl ⟨⟨.assistant, t, [], []⟩,
              by simp [handleServerMessage, hp, textDeltaUpdate, hl]⟩))
        | some m =>
            by_cases hr : m.role = .assistant
            · exact Or.inr (Or.inr (Or.inr ⟨{ m with content := m.content ++ t },
                by simp [handleServerMessage, hp, textDeltaUpdate, hl, hr]⟩))
            · exact Or.inr (Or.inr (Or.inl ⟨⟨.assistant, t, [], []⟩,
                by simp [handleServerMessage, hp, textDeltaUpdate, hl, hr]⟩))
  | tool_start tid name =>
      cases hl : st.messages.getLast? with
      | none =>
          exact Or.inr (Or.inr (Or.inl ⟨⟨.assistant, "", [], [⟨tid, name, .running⟩]⟩,
            by simp [handleServerMessage, toolStartUpdate, hl]⟩))
      | some m =>
          by_cases hr : m.role = .assistant
          · exact Or.inr (Or.inr (Or.inr
              ⟨{ m with tools := m.tools ++ [⟨tid, name, .running⟩] },
                by simp [handleServerMessage, toolStartUpdate, hl, hr]⟩))
          · exact Or.inr (Or.inr (Or.inl ⟨⟨.assistant, "", [], [⟨tid, name, .running⟩]⟩,
              by simp [handleServerMessage, toolStartUpdate, hl, hr]⟩))
  | tool_end tid =>
      cases hl : st.messages.getLast? with
      | none => exact Or.inl (by simp [handleServerMessage, toolEndUpdate, hl])
      | some m =>
          by_cases hr : m.role = .assistant
          · exact Or.inr (Or.inr (Or.inr
              ⟨{ m with tools := m.tools.map fun t =>
                  if t.id = tid then { t with status := .done } else t },
                by simp [handleServerMessage, toolEndUpdate, hl, hr]⟩))
          · exact Or.inl (by simp [handleServerMessage, toolEndUpdate, hl, hr])

/-- C8: a frame whose `type` matches no case of the reducer's switch leaves
the whole client state unchanged (and, being a total function, throws
nothing). -/
theorem unknown_frame_noop (st : ClientState) (ty : String) :
    handleServerMessage st (.unknown ty) = st := rfl

/-- C9: a `cleared` event empties the transcript regardless of prior state. -/
theorem cleared_empties_transcript (st : ClientState) :
    (handleServerMessage st ServerMsg.cleared).messages = [] := rfl

/-- C10: `sendMessage` is a complete no-op (state unchanged, no frame sent)
when the trimmed input is empty with no attachments, or the socket is not
set, or the reasoning indicator is on. -/
theorem send_blocked_noop (st : ClientState)
    (h : (st.input.trim = "" ∧ st.media = []) ∨ st.wsOpen = false ∨ st.isThinking = true) :
    sendMessage st = (st, none) := by
  have hb : sendBlocked st := h
  simp [sendMessage, hb]

/-- Witness for C10 with the socket unset. -/
theorem send_blocked_noop_witness :
    sendMessage ⟨[], "hello", [], false, false, none, false, false⟩
      = (⟨[], "hello", [], false, false, none, false, false⟩, none) :=
  send_blocked_noop ⟨[], "hello", [], false, false, none, false, false⟩
    (Or.inr (Or.inl rfl))

end AgentUI
